import Mathlib

/-!
Verification of the conversation-step execution engine of the voice-agent
backend (`backend/app/core/engine.py`, `backend/app/core/router.py`,
`backend/app/utils/templating.py`, and the node executors under
`backend/app/domain/nodes/`).

The Python code is shallowly embedded: `dict` variable maps become
association lists with in-place-overwrite insertion, Python exceptions
become `Except String`, and in-place mutation of the caller's
`ConversationState` during `step` is made visible by returning the
mutated state alongside the error (`Except (String × ConversationState)`).
JMESPath expression evaluation (an external library) is abstracted as an
uninterpreted evaluation function `JmesEval` threaded through the engine;
the text-generation collaborator (`LLMClient.complete`) is abstracted as a
function from prompt and system strings to an `Except`-valued result.
The Python field/key name `variables` is a reserved word in Lean 4 and is
rendered `vars` throughout.
-/

namespace VoiceAgent

/-- A Python runtime value as stored in `variables` (enough of Python's
value universe for the engine: strings, ints, bools, None).  Equality is
constructor-strict, matching Python `==` across these types
(`1 == "1"` is `False`, `None == x` is `False` for the others). -/
inductive PyValue where
  | vStr (s : String)
  | vInt (n : Int)
  | vBool (b : Bool)
  | vNone
deriving DecidableEq, Repr

/-- Python `str()` of a `PyValue`. -/
def pyStr : PyValue → String
  | .vStr s => s
  | .vInt n => toString n
  | .vBool true => "True"
  | .vBool false => "False"
  | .vNone => "None"

def squote : Char := Char.ofNat 39

/-- Python `repr()` of a `PyValue` (strings get quotes). -/
def pyRepr : PyValue → String
  | .vStr s => squote.toString ++ s ++ squote.toString
  | v => pyStr v

def joinWith (sep : String) : List String → String
  | [] => ""
  | [x] => x
  | x :: xs => x ++ sep ++ joinWith sep xs

/-- Python `str()` of a dict of extracted values, as produced by
`str(result)` in the LLM node. -/
def pyReprObj (kvs : List (String × PyValue)) : String :=
  "\x7b" ++ joinWith ", "
    (kvs.map (fun kv => pyRepr (.vStr kv.1) ++ ": " ++ pyRepr kv.2)) ++ "\x7d"

/-- Python `str.isspace` characters relevant to `strip()`. -/
def pyIsSpace (c : Char) : Bool :=
  c == ' ' || c == '\t' || c == '\n' || c == '\r' || c == Char.ofNat 11 || c == Char.ofNat 12

/-- Python `s.strip()` on a character list. -/
def pyStripList (l : List Char) : List Char :=
  ((l.dropWhile pyIsSpace).reverse.dropWhile pyIsSpace).reverse

/-- Python `s.strip()`. -/
def pyStrip (s : String) : String :=
  String.mk (pyStripList s.data)

/-- Python `s.split(sep)` (non-overlapping, left to right): the scan, with
explicit fuel (one unit per character, always sufficient at
`fuel = l.length`). -/
def splitGo (sep : List Char) : Nat → List Char → List Char → List (List Char)
  | _, acc, [] => [acc.reverse]
  | 0, acc, l => [acc.reverse ++ l]
  | fuel + 1, acc, c :: rest =>
      if sep.isPrefixOf (c :: rest) then
        acc.reverse :: splitGo sep fuel [] ((c :: rest).drop sep.length)
      else
        splitGo sep fuel (c :: acc) rest

/-- Python `s.split(sep)` for a non-empty separator. -/
def pySplit (s sep : String) : List String :=
  (splitGo sep.data s.data.length [] s.data).map String.mk

/-- A Python dict with string keys (`state.variables`, the LLM's
structured result): an association list; lookup takes the first binding,
insertion overwrites in place. -/
def varsGet (vs : List (String × PyValue)) (k : String) : Option PyValue :=
  (vs.find? (fun kv => kv.1 == k)).map (fun kv => kv.2)

/-- Python `d[k] = v`: overwrite the existing binding in place, else append. -/
def varsSet : List (String × PyValue) → String → PyValue → List (String × PyValue)
  | [], k, v => [(k, v)]
  | (k1, v1) :: rest, k, v =>
      if k1 = k then (k, v) :: rest else (k1, v1) :: varsSet rest k v

/-- `Message` from `app/domain/models.py`. -/
structure Message where
  role : String
  content : String
  name : Option String := none
deriving DecidableEq, Repr

/-- `ConversationState` from `app/domain/models.py` (`vars` is the Python
field `variables`). -/
structure ConversationState where
  messages : List Message := []
  vars : List (String × PyValue) := []
  last_node : Option String := none
  done : Bool := false
deriving DecidableEq, Repr

/-- `NodeType` from `app/domain/models.py`: the closed set of node kinds. -/
inductive NodeType where
  | Prompt
  | LLM
  | If
  | SetVar
  | Output
deriving DecidableEq, Repr

/-- A value of a `SetVar` config entry: a string is a JMESPath expression,
anything else is a static literal (`setvar.py`, `to_graph_fn`). -/
inductive SetVarExpr where
  | jmes (expr : String)
  | lit (v : PyValue)
deriving DecidableEq, Repr

/-- The union of the per-type `config` keys read by the node executors.
`text` (Prompt/Output), `prompt`/`extract` (LLM),
`condition`/`true_target`/`false_target` (If), `setvars` (SetVar's
`variables` config key). -/
structure NodeConfig where
  text : Option String := none
  prompt : Option String := none
  extract : Option (List String) := none
  condition : Option String := none
  true_target : Option String := none
  false_target : Option String := none
  setvars : Option (List (String × SetVarExpr)) := none
deriving DecidableEq, Repr

/-- `Node` from `app/domain/models.py`. -/
structure Node where
  id : String
  type : NodeType
  config : NodeConfig := {}
  next : Option String := none
deriving DecidableEq, Repr

/-- `Edge` from `app/domain/models.py`.  `condition` is never evaluated on
the manual start/step path. -/
structure Edge where
  id : String
  source : String
  target : String
  condition : Option String := none
deriving DecidableEq, Repr

/-- `Workflow` from `app/domain/models.py`; `edges = None` is modelled as
the empty list (both are falsy wherever the engine tests them), and
`vars` is the Python field `variables`. -/
structure Workflow where
  id : String
  name : String
  version : Int := 1
  vars : List (String × PyValue) := []
  nodes : List Node
  edges : List Edge := []
deriving DecidableEq, Repr

/-! ## Templating (`app/utils/templating.py`)

`render_template` is `re.sub(r"\x7b\x7b(.*?)\x7d\x7d", replace, template)`
where `replace` strips the captured name, substitutes
`str(variables[name])` when the name is a key, and reproduces the whole
match verbatim otherwise.  The scanner below mirrors the regex engine:
leftmost match start, lazy (shortest) inner text, `.` not matching
newline. -/

/-- After an opening `\x7b\x7b`, the lazy scan for the closing
`\x7d\x7d`: returns the inner text and the remainder after the closing
braces, or `none` when no close exists before a newline or the end. -/
def scanInner : List Char → Option (List Char × List Char)
  | [] => none
  | '}' :: '}' :: rest => some ([], rest)
  | '\n' :: _ => none
  | c :: rest => (scanInner rest).map (fun p => (c :: p.1, p.2))

theorem scanInner_decomp : ∀ l inner rest, scanInner l = some (inner, rest) →
    l = inner ++ '}' :: '}' :: rest := by
  intro l
  induction l using scanInner.induct with
  | case1 => intro i r h; simp [scanInner] at h
  | case2 rest => intro i r h; simp [scanInner] at h; simp [← h.1, ← h.2]
  | case3 => intro i r h; simp [scanInner] at h
  | case4 c rest h1 h2 ih =>
      intro i r h
      simp only [scanInner] at h
      rcases hr : scanInner rest with _ | ⟨i0, r0⟩ <;> rw [hr] at h <;> simp at h
      have := ih i0 r0 hr
      rw [← h.1, ← h.2, this]
      simp

theorem scanInner_length {l inner rest} (h : scanInner l = some (inner, rest)) :
    l.length = inner.length + 2 + rest.length := by
  have := scanInner_decomp l inner rest h
  subst this
  simp
  omega

/-- The `re.sub` loop of `render_template`, on character lists.  At
`\x7b\x7b` with a reachable close: strip the inner name, substitute when
it is a key of `vs`, otherwise keep the whole match verbatim.  With no
reachable close the regex fails at that position and the scan advances
one character.  The fuel (one unit per scan position) is always
sufficient at `fuel = l.length`; the fuel-exhausted branch is dead code. -/
def renderGo (vs : List (String × PyValue)) : Nat → List Char → List Char
  | _, [] => []
  | 0, l => l
  | fuel + 1, '{' :: '{' :: rest =>
      match scanInner rest with
      | some (inner, rest2) =>
          match varsGet vs (String.mk (pyStripList inner)) with
          | some v => (pyStr v).data ++ renderGo vs fuel rest2
          | none => '{' :: '{' :: (inner ++ '}' :: '}' :: renderGo vs fuel rest2)
      | none => '{' :: renderGo vs fuel ('{' :: rest)
  | fuel + 1, c :: rest => c :: renderGo vs fuel rest

/-- One unit of the `re.sub` scan of `render_template`: either a
character outside any match, or one matched `\x7b\x7b...\x7d\x7d`
placeholder with its captured inner text. -/
inductive Segment where
  | lit (c : Char)
  | ph (inner : List Char)
deriving DecidableEq, Repr

/-- The source text a segment came from (a placeholder's full match,
braces included). -/
def segSrc : Segment → List Char
  | .lit c => [c]
  | .ph inner => '{' :: '{' :: (inner ++ ['}', '}'])

/-- What `re.sub`'s replacement callback contributes for one segment:
literal characters pass through; a placeholder whose stripped name is a
key is replaced by `str(value)`, any other placeholder is reproduced
verbatim. -/
def renderSeg (vs : List (String × PyValue)) : Segment → List Char
  | .lit c => [c]
  | .ph inner =>
      match varsGet vs (String.mk (pyStripList inner)) with
      | some v => (pyStr v).data
      | none => '{' :: '{' :: (inner ++ ['}', '}'])

/-- The decomposition of a template into its scan segments (same scan and
fuel discipline as `renderGo`). -/
def segmentsGo : Nat → List Char → List Segment
  | _, [] => []
  | 0, l => l.map .lit
  | fuel + 1, '{' :: '{' :: rest =>
      match scanInner rest with
      | some (inner, rest2) => .ph inner :: segmentsGo fuel rest2
      | none => .lit '{' :: segmentsGo fuel ('{' :: rest)
  | fuel + 1, c :: rest => .lit c :: segmentsGo fuel rest

def segments (l : List Char) : List Segment := segmentsGo l.length l

/-- Concatenation of per-segment text. -/
def catSegs (f : Segment → List Char) : List Segment → List Char
  | [] => []
  | s :: rest => f s ++ catSegs f rest

/-- `render_template` from `app/utils/templating.py`. -/
def render_template (template : String) (vs : List (String × PyValue)) : String :=
  String.mk (renderGo vs template.data.length template.data)

/-! ## Condition routing (`app/core/router.py`) -/

/-- The JMESPath library, abstracted: `jm expr state` is
`jmespath.compile(expr).search(state.model_dump())` (compilation is
modelled as total). -/
def JmesEval := String → ConversationState → PyValue

/-- The `check_equality` closure of `create_router`: exact Python `==`
between the stored variable value (or `None` when missing) and the
literal string — no numeric coercion. -/
def checkEquality (var value : String) : ConversationState → Except String Bool :=
  fun state => .ok (varsGet state.vars var == some (.vStr value))

def isQuoteChar (c : Char) : Bool := c == Char.ofNat 34 || c == squote

/-- Python `s.strip(chars)` for the quote characters `"` and `'`. -/
def stripQuotes (s : String) : String :=
  String.mk (((s.data.dropWhile isQuoteChar).reverse.dropWhile isQuoteChar).reverse)

/-- The `evaluate_expression` closure of `create_router`: evaluate the
compiled expression against the serialized state; any non-boolean result
is a hard error. -/
def evalExpression (jm : JmesEval) (condition : String) :
    ConversationState → Except String Bool :=
  fun state =>
    match jm condition state with
    | .vBool b => .ok b
    | _ => .error ("Condition " ++ condition ++ " must evaluate to boolean")

/-- `create_router` from `app/core/router.py`.  `condition.split("==")`
keeps every fragment; unpacking `var, value = ...` succeeds only for
exactly two fragments, so a condition with more than one `==` raises
`ValueError` at router-construction time. -/
def create_router (jm : JmesEval) (condition : String) :
    Except String (ConversationState → Except String Bool) :=
  match pySplit condition "==" with
  | [var, value] => .ok (checkEquality (pyStrip var) (stripQuotes (pyStrip value)))
  | [_] => .ok (evalExpression jm condition)
  | _ => .error "too many values to unpack (expected 2)"

/-! ## Node executors (`app/domain/nodes/*.py`)

Each executor is the closure returned by the node class's `to_graph_fn`;
Python exceptions become `Except.error`.  Construction-time work
(`validate`, and `create_router` inside `IfNode.to_graph_fn`) is split
into `prepareNode`, because in `WorkflowEngine.step` it happens before
the user message is appended to the caller's state. -/

/-- The text-generation collaborator `LLMClient.complete(prompt, system,
json_mode=True)`: either raises, or returns a parsed JSON value that may
(`obj`) or may not (`other`) be a dict. -/
inductive LLMResult where
  | obj (kvs : List (String × PyValue))
  | other (v : PyValue)
deriving DecidableEq, Repr

def Collab := String → String → Except String LLMResult

/-- The fixed system instruction passed by `LLMNode.to_graph_fn`. -/
def llmSystemInstruction : String := "Extract information from the user's message."

/-- `PromptNode.to_graph_fn`'s `prompt_fn`. -/
def promptRun (n : Node) (s : ConversationState) : Except String ConversationState :=
  match n.config.text with
  | none => .error ("Node " ++ n.id ++ " missing required text config")
  | some t =>
      let vs :=
        match s.messages.getLast? with
        | some m => if m.role = "user" then varsSet s.vars "user_input" (.vStr m.content)
                    else s.vars
        | none => s.vars
      .ok { s with vars := vs,
                   messages := s.messages ++ [{ role := "assistant",
                                                content := render_template t vs }],
                   last_node := some n.id }

/-- `OutputNode.to_graph_fn`'s `output_fn`: also stores the last user
message under the fixed key `"name"` and unconditionally sets `done`. -/
def outputRun (n : Node) (s : ConversationState) : Except String ConversationState :=
  match n.config.text with
  | none => .error ("Node " ++ n.id ++ " missing required text config")
  | some t =>
      let vs :=
        match s.messages.getLast? with
        | some m => if m.role = "user" then varsSet s.vars "name" (.vStr m.content)
                    else s.vars
        | none => s.vars
      .ok { s with vars := vs,
                   messages := s.messages ++ [{ role := "assistant",
                                                content := render_template t vs }],
                   last_node := some n.id,
                   done := true }

/-- `IfNode.to_graph_fn`'s `if_fn`: evaluate the condition, write the
chosen branch target into `variables["_next"]`.  Produces no message and
does not touch `done`. -/
def ifRun (jm : JmesEval) (n : Node) (s : ConversationState) :
    Except String ConversationState :=
  match n.config.condition, n.config.true_target, n.config.false_target with
  | some c, some tt, some ft =>
      match create_router jm c with
      | .error e => .error e
      | .ok router =>
          match router s with
          | .error e => .error e
          | .ok b =>
              .ok { s with last_node := some n.id,
                           vars := varsSet s.vars "_next" (.vStr (if b then tt else ft)) }
  | _, _, _ => .error ("Node " ++ n.id ++ " missing required config")

/-- `SetVarNode.to_graph_fn`'s `setvar_fn`: `state_dict` is serialized
once before the loop, so every expression sees the state as it was on
entry while assignments accumulate in `variables`. -/
def setVarRun (jm : JmesEval) (n : Node) (s : ConversationState) :
    Except String ConversationState :=
  match n.config.setvars with
  | none => .error ("Node " ++ n.id ++ " missing required config")
  | some entries =>
      let vs := entries.foldl
        (fun acc kv =>
          varsSet acc kv.1 (match kv.2 with
                            | .jmes q => jm q s
                            | .lit v => v))
        s.vars
      .ok { s with vars := vs, last_node := some n.id }

/-- The `extracted` dict built by `llm_fn`: for each name of the
`extract` config present in the structured result, the result's value. -/
def extractedFields (fields : List String) (kvs : List (String × PyValue)) :
    List (String × PyValue) :=
  fields.filterMap (fun f => (varsGet kvs f).map (fun v => (f, v)))

/-- `LLMNode.to_graph_fn`'s `llm_fn`: scan messages backward for a user
message (error when none); render the prompt against the variables merged
with `user_input`; call the collaborator; when the result is a dict, copy
the `extract` fields that are present into `variables` and append one
assistant message whose content is `extracted.get("response", str(result))`;
when it is not a dict, silently skip both.  `Message.content` is a
pydantic-v2 `str` field, which rejects non-string input without coercion:
an extracted `"response"` value that is not a string makes the message
construction raise `ValidationError` (in the source this happens after
`variables.update`, a partial in-place mutation the error path here drops
along with the rest of the executor's local state). -/
def llmRun (collab : Collab) (n : Node) (s : ConversationState) :
    Except String ConversationState :=
  match n.config.prompt, n.config.extract with
  | some ptmpl, some fields =>
      match s.messages.reverse.find? (fun m => m.role == "user") with
      | none => .error "LLM node requires a user message"
      | some um =>
          let prompt := render_template ptmpl
            (varsSet s.vars "user_input" (.vStr um.content))
          match collab prompt llmSystemInstruction with
          | .error e => .error e
          | .ok (.obj kvs) =>
              match varsGet (extractedFields fields kvs) "response" with
              | some (.vStr c) =>
                  .ok { s with
                        vars := (extractedFields fields kvs).foldl
                          (fun acc kv => varsSet acc kv.1 kv.2) s.vars,
                        messages := s.messages ++ [{ role := "assistant",
                                                     content := c }],
                        last_node := some n.id }
              | some _ => .error "ValidationError: Message content must be a string"
              | none =>
                  .ok { s with
                        vars := (extractedFields fields kvs).foldl
                          (fun acc kv => varsSet acc kv.1 kv.2) s.vars,
                        messages := s.messages ++ [{ role := "assistant",
                                                     content := pyReprObj kvs }],
                        last_node := some n.id }
          | .ok (.other _) => .ok { s with last_node := some n.id }
  | _, _ => .error ("Node " ++ n.id ++ " missing required config")

/-- The per-type `validate()` methods, run at `NodeRegistry.create`. -/
def validateNode (n : Node) : Except String Unit :=
  match n.type with
  | .Prompt | .Output =>
      if n.config.text.isSome then .ok ()
      else .error ("Node " ++ n.id ++ " missing required text config")
  | .LLM =>
      if n.config.prompt.isSome && n.config.extract.isSome then .ok ()
      else .error ("Node " ++ n.id ++ " missing required config")
  | .If =>
      if n.config.condition.isSome && n.config.true_target.isSome
         && n.config.false_target.isSome then .ok ()
      else .error ("Node " ++ n.id ++ " missing required config")
  | .SetVar =>
      if n.config.setvars.isSome then .ok ()
      else .error ("Node " ++ n.id ++ " missing required config")

/-- `NodeRegistry.create(node)` followed by `to_graph_fn()`: validation,
plus — for `If` — the `create_router` call made inside `to_graph_fn`,
which can itself raise before the node function ever runs. -/
def prepareNode (jm : JmesEval) (n : Node) : Except String Unit :=
  match validateNode n with
  | .error e => .error e
  | .ok _ =>
      match n.type, n.config.condition with
      | .If, some c =>
          match create_router jm c with
          | .error e => .error e
          | .ok _ => .ok ()
      | _, _ => .ok ()

/-- Dispatch to the executor of the node's type (the `NodeRegistry`). -/
def runNode (collab : Collab) (jm : JmesEval) (n : Node) (s : ConversationState) :
    Except String ConversationState :=
  match n.type with
  | .Prompt => promptRun n s
  | .Output => outputRun n s
  | .If => ifRun jm n s
  | .SetVar => setVarRun jm n s
  | .LLM => llmRun collab n s

/-! ## The manual start/step driver (`app/core/engine.py`)

Python truthiness is made explicit: an optional string is truthy when it
is present and non-empty (`input_text`, `state.last_node`, `node.next`),
a list when it is non-empty (`workflow.edges`). -/

/-- `WorkflowEngine._find_node_by_id`. -/
def findNodeById (wf : Workflow) (nodeId : String) : Option Node :=
  wf.nodes.find? (fun n => n.id == nodeId)

/-- `WorkflowEngine._find_next_node_from_edges`: the first edge whose
source matches decides — its condition is ignored, and a dangling target
yields `none` without trying later edges. -/
def findNextNodeFromEdges (wf : Workflow) (currentId : String) : Option Node :=
  match wf.edges.find? (fun e => e.source == currentId) with
  | some e => findNodeById wf e.target
  | none => none

/-- `WorkflowEngine._find_next_node_from_next_prop` (a falsy — empty —
`next` counts as absent). -/
def findNextNodeFromNextProp (wf : Workflow) (currentId : String) : Option Node :=
  match findNodeById wf currentId with
  | some n =>
      match n.next with
      | some nxt => if nxt = "" then none else findNodeById wf nxt
      | none => none
  | none => none

/-- The driver's resolution order: edges first, `next` pointer fallback. -/
def resolveFrom (wf : Workflow) (currentId : String) : Option Node :=
  match findNextNodeFromEdges wf currentId with
  | some n => some n
  | none => findNextNodeFromNextProp wf currentId

/-- `WorkflowEngine._has_next_node`: with a non-empty edge list, only the
existence of an outgoing edge counts (the `next` pointer is not
consulted); with no edges, the truthiness of `next`. -/
def hasNextNode (wf : Workflow) (n : Node) : Bool :=
  if wf.edges.isEmpty then
    match n.next with
    | some nxt => nxt ≠ ""
    | none => false
  else
    wf.edges.any (fun e => e.source == n.id)

/-- The node `step` executes: the first node when `state.last_node` is
falsy, otherwise edges-then-fallback from `last_node`. -/
def resolveStepNode (wf : Workflow) (s : ConversationState) : Option Node :=
  match wf.nodes with
  | [] => none
  | first :: _ =>
      match s.last_node with
      | none => some first
      | some lid => if lid = "" then some first else resolveFrom wf lid

/-- `state.messages.append(Message(role="user", content=user_text))`. -/
def appendUserMessage (s : ConversationState) (userText : String) : ConversationState :=
  { s with messages := s.messages ++ [{ role := "user", content := userText }] }

/-- The `step` errors carry the caller-visible state at the moment the
exception propagates (the Python code mutates the caller's state object
in place). -/
def StepResult := Except (String × ConversationState) ConversationState

/-- The LLM→Output chaining tail shared by `step`'s Prompt and LLM
branches: resolve the successor of `src` and execute it only when it is
an Output node, then overwrite `last_node` and `done`. -/
def chainOutput (collab : Collab) (jm : JmesEval) (wf : Workflow)
    (src : Node) (r : ConversationState) : StepResult :=
  match resolveFrom wf src.id with
  | some n3 =>
      if n3.type == NodeType.Output then
        match prepareNode jm n3 with
        | .error e => .error (e, r)
        | .ok _ =>
            match runNode collab jm n3 r with
            | .error e => .error (e, r)
            | .ok r3 => .ok { r3 with last_node := some n3.id,
                                      done := !hasNextNode wf n3 }
      else .ok r
  | none => .ok r

/-- `step`'s Prompt→LLM chaining: resolve the successor of `src` and
execute it only when it is an LLM node; when the run is then not done,
try the further LLM→Output chain. -/
def chainLLM (collab : Collab) (jm : JmesEval) (wf : Workflow)
    (src : Node) (r : ConversationState) : StepResult :=
  match resolveFrom wf src.id with
  | some n2 =>
      if n2.type == NodeType.LLM then
        match prepareNode jm n2 with
        | .error e => .error (e, r)
        | .ok _ =>
            match runNode collab jm n2 r with
            | .error e => .error (e, r)
            | .ok r2pre =>
                let r2 : ConversationState :=
                  { r2pre with last_node := some n2.id, done := !hasNextNode wf n2 }
                if !r2.done then chainOutput collab jm wf n2 r2 else .ok r2
      else .ok r
  | none => .ok r

/-- `WorkflowEngine.step(state, user_text)`. -/
def step (collab : Collab) (jm : JmesEval) (wf : Workflow)
    (s : ConversationState) (userText : String) : StepResult :=
  if wf.nodes.isEmpty then .ok s
  else
    match resolveStepNode wf s with
    | none => .ok { s with done := true }
    | some n =>
        match prepareNode jm n with
        | .error e => .error (e, s)
        | .ok _ =>
            let s1 := appendUserMessage s userText
            match runNode collab jm n s1 with
            | .error e => .error (e, s1)
            | .ok r0 =>
                let r1 : ConversationState :=
                  { r0 with last_node := some n.id, done := !hasNextNode wf n }
                if n.type == NodeType.Prompt then chainLLM collab jm wf n r1
                else if n.type == NodeType.LLM && !r1.done then
                  chainOutput collab jm wf n r1
                else .ok r1

/-- The initial state built by `start`: a copy of the workflow's declared
variables, plus the input text as a user message when it is truthy. -/
def startInitState (wf : Workflow) (inputText : Option String) : ConversationState :=
  { messages :=
      match inputText with
      | some t => if t = "" then [] else [{ role := "user", content := t }]
      | none => [],
    vars := wf.vars,
    last_node := none,
    done := false }

/-- `WorkflowEngine.start(input_text)`.  The first node always runs;
`done` is then unconditionally reset to `False`.  Only with truthy input
does the fixed three-node lookahead (first → LLM → Output) apply, and the
input text is appended a second time as a user message before the LLM
node runs. -/
def start (collab : Collab) (jm : JmesEval) (wf : Workflow)
    (inputText : Option String) : Except String ConversationState :=
  match wf.nodes with
  | [] => .ok {}
  | first :: _ =>
      let truthy : Bool :=
        match inputText with
        | some t => t ≠ ""
        | none => false
      match prepareNode jm first with
      | .error e => .error e
      | .ok _ =>
          match runNode collab jm first (startInitState wf inputText) with
          | .error e => .error e
          | .ok r0 =>
              let r1 : ConversationState :=
                { r0 with last_node := some first.id, done := false }
              if truthy && !r1.done then
                match resolveFrom wf first.id with
                | some n2 =>
                    if n2.type == NodeType.LLM then
                      let r1u := appendUserMessage r1 (inputText.getD "")
                      match prepareNode jm n2 with
                      | .error e => .error e
                      | .ok _ =>
                          match runNode collab jm n2 r1u with
                          | .error e => .error e
                          | .ok r2pre =>
                              let r2 : ConversationState :=
                                { r2pre with last_node := some n2.id,
                                             done := !hasNextNode wf n2 }
                              if !r2.done then
                                match resolveFrom wf n2.id with
                                | some n3 =>
                                    if n3.type == NodeType.Output then
                                      match prepareNode jm n3 with
                                      | .error e => .error e
                                      | .ok _ =>
                                          match runNode collab jm n3 r2 with
                                          | .error e => .error e
                                          | .ok r3 =>
                                              .ok { r3 with
                                                    last_node := some n3.id,
                                                    done := !hasNextNode wf n3 }
                                    else .ok r2
                                | none => .ok r2
                              else .ok r2
                    else .ok r1
                | none => .ok r1
              else .ok r1

/-! ## Supporting lemmas -/

theorem renderGo_succ_open (vs : List (String × PyValue)) (fuel : Nat) (rest : List Char) :
    renderGo vs (fuel + 1) ('{' :: '{' :: rest) =
      match scanInner rest with
      | some (inner, rest2) =>
          match varsGet vs (String.mk (pyStripList inner)) with
          | some v => (pyStr v).data ++ renderGo vs fuel rest2
          | none => '{' :: '{' :: (inner ++ '}' :: '}' :: renderGo vs fuel rest2)
      | none => '{' :: renderGo vs fuel ('{' :: rest) := rfl

theorem renderGo_succ_cons_ne (vs : List (String × PyValue)) (fuel : Nat)
    {c : Char} {rest : List Char}
    (hc : ∀ r2, c = '{' → rest = '{' :: r2 → False) :
    renderGo vs (fuel + 1) (c :: rest) = c :: renderGo vs fuel rest := by
  rw [renderGo.eq_def]
  split
  · next heq => exact List.noConfusion heq
  · next heq _ => exact absurd heq (Nat.succ_ne_zero fuel)
  · next heq1 heq2 =>
      injection heq2 with h1 h2
      exact (hc _ h1 h2).elim
  · next heq1 heq2 =>
      injection heq1 with hf
      injection heq2 with h1 h2
      rw [← hf, ← h1, ← h2]

theorem renderGo_nil (vs : List (String × PyValue)) (fuel : Nat) :
    renderGo vs fuel [] = [] := by
  cases fuel <;> rfl

theorem segmentsGo_nil (fuel : Nat) : segmentsGo fuel [] = [] := by
  cases fuel <;> rfl

theorem segmentsGo_succ_open (fuel : Nat) (rest : List Char) :
    segmentsGo (fuel + 1) ('{' :: '{' :: rest) =
      match scanInner rest with
      | some (inner, rest2) => .ph inner :: segmentsGo fuel rest2
      | none => .lit '{' :: segmentsGo fuel ('{' :: rest) := rfl

theorem segmentsGo_succ_cons_ne (fuel : Nat) {c : Char} {rest : List Char}
    (hc : ∀ r2, c = '{' → rest = '{' :: r2 → False) :
    segmentsGo (fuel + 1) (c :: rest) = .lit c :: segmentsGo fuel rest := by
  rw [segmentsGo.eq_def]
  split
  · next heq => exact List.noConfusion heq
  · next heq _ => exact absurd heq (Nat.succ_ne_zero fuel)
  · next heq1 heq2 =>
      injection heq2 with h1 h2
      exact (hc _ h1 h2).elim
  · next heq1 heq2 =>
      injection heq1 with hf
      injection heq2 with h1 h2
      rw [← hf, ← h1, ← h2]

/-- The scan behind `render_template` decomposed: the rendering is the
concatenation of the per-segment contributions of `renderSeg`. -/
theorem renderGo_eq_catSegs (vs : List (String × PyValue)) :
    ∀ fuel l, l.length ≤ fuel →
      renderGo vs fuel l = catSegs (renderSeg vs) (segmentsGo fuel l) := by
  intro fuel
  induction fuel with
  | zero =>
      intro l hl
      rw [List.length_eq_zero.mp (Nat.le_zero.mp hl)]
      rfl
  | succ f ih =>
      intro l hl
      rcases l with _ | ⟨c1, _ | ⟨c2, rest⟩⟩
      · rw [renderGo_nil, segmentsGo_nil]; rfl
      · have hc : ∀ r2, c1 = '{' → ([] : List Char) = '{' :: r2 → False := by
          intro r2 _ hr; exact List.noConfusion hr
        rw [renderGo_succ_cons_ne vs f hc, segmentsGo_succ_cons_ne f hc,
            renderGo_nil, segmentsGo_nil]
        rfl
      · by_cases hbrace : c1 = '{' ∧ c2 = '{'
        · obtain ⟨hb1, hb2⟩ := hbrace
          subst hb1; subst hb2
          cases hscan : scanInner rest with
          | some p =>
              obtain ⟨inner, rest2⟩ := p
              have hlen := scanInner_length hscan
              have hrec := ih rest2 (by simp at hl; omega)
              rw [renderGo_succ_open vs f rest, hscan,
                  segmentsGo_succ_open f rest, hscan]
              show _ = renderSeg vs (.ph inner) ++ catSegs (renderSeg vs) (segmentsGo f rest2)
              rw [renderSeg]
              cases hget : varsGet vs (String.mk (pyStripList inner)) <;>
                simp [hget, hrec]
          | none =>
              have hrec := ih ('{' :: rest) (by simp at hl; simp; omega)
              rw [renderGo_succ_open vs f rest, hscan,
                  segmentsGo_succ_open f rest, hscan]
              show _ = renderSeg vs (.lit '{') ++ catSegs (renderSeg vs) (segmentsGo f ('{' :: rest))
              simp [renderSeg, hrec]
        · have hc : ∀ r2, c1 = '{' → (c2 :: rest) = '{' :: r2 → False := by
            intro r2 h1 hr
            injection hr with h2 _
            exact hbrace ⟨h1, h2⟩
          have hrec := ih (c2 :: rest) (by simp at hl; simp; omega)
          rw [renderGo_succ_cons_ne vs f hc, segmentsGo_succ_cons_ne f hc, hrec]
          rfl

/-- The scan segments reassemble to the template: joining every segment's
source text gives back the input. -/
theorem segmentsGo_src :
    ∀ fuel l, l.length ≤ fuel → catSegs segSrc (segmentsGo fuel l) = l := by
  intro fuel
  induction fuel with
  | zero =>
      intro l hl
      rw [List.length_eq_zero.mp (Nat.le_zero.mp hl)]
      rfl
  | succ f ih =>
      intro l hl
      rcases l with _ | ⟨c1, _ | ⟨c2, rest⟩⟩
      · rw [segmentsGo_nil]; rfl
      · have hc : ∀ r2, c1 = '{' → ([] : List Char) = '{' :: r2 → False := by
          intro r2 _ hr; exact List.noConfusion hr
        rw [segmentsGo_succ_cons_ne f hc, segmentsGo_nil]
        rfl
      · by_cases hbrace : c1 = '{' ∧ c2 = '{'
        · obtain ⟨hb1, hb2⟩ := hbrace
          subst hb1; subst hb2
          cases hscan : scanInner rest with
          | some p =>
              obtain ⟨inner, rest2⟩ := p
              have hlen := scanInner_length hscan
              have hrec := ih rest2 (by simp at hl; omega)
              rw [segmentsGo_succ_open f rest, hscan]
              show segSrc (.ph inner) ++ catSegs segSrc (segmentsGo f rest2) = _
              rw [hrec, segSrc, scanInner_decomp rest inner rest2 hscan]
              simp
          | none =>
              have hrec := ih ('{' :: rest) (by simp at hl; simp; omega)
              rw [segmentsGo_succ_open f rest, hscan]
              show segSrc (.lit '{') ++ catSegs segSrc (segmentsGo f ('{' :: rest)) = _
              rw [hrec]
              rfl
        · have hc : ∀ r2, c1 = '{' → (c2 :: rest) = '{' :: r2 → False := by
            intro r2 h1 hr
            injection hr with h2 _
            exact hbrace ⟨h1, h2⟩
          have hrec := ih (c2 :: rest) (by simp at hl; simp; omega)
          rw [segmentsGo_succ_cons_ne f hc]
          show segSrc (.lit c1) ++ catSegs segSrc (segmentsGo f (c2 :: rest)) = _
          rw [hrec]
          rfl

/-- With the empty variable map every segment renders to its own source
text. -/
theorem renderSeg_empty_eq_src : ∀ seg, renderSeg [] seg = segSrc seg := by
  intro seg
  cases seg <;> rfl

theorem varsGet_varsSet_self (vs : List (String × PyValue)) (k : String) (v : PyValue) :
    varsGet (varsSet vs k v) k = some v := by
  induction vs with
  | nil => simp [varsSet, varsGet, List.find?]
  | cons kv rest ih =>
      obtain ⟨k1, v1⟩ := kv
      by_cases hk : k1 = k
      · simp [varsSet, hk, varsGet, List.find?]
      · simp only [varsSet, if_neg hk]
        simp only [varsGet, List.find?] at ih ⊢
        rw [show ((k1, v1).1 == k) = false from beq_eq_false_iff_ne.mpr hk]
        exact ih

theorem varsGet_varsSet_ne (vs : List (String × PyValue)) {k1 k2 : String} (v : PyValue)
    (hk : k1 ≠ k2) : varsGet (varsSet vs k1 v) k2 = varsGet vs k2 := by
  induction vs with
  | nil => simp [varsSet, varsGet, List.find?, beq_eq_false_iff_ne.mpr hk]
  | cons kv rest ih =>
      obtain ⟨ka, va⟩ := kv
      by_cases hka : ka = k1
      · subst hka
        simp [varsSet, varsGet, List.find?, beq_eq_false_iff_ne.mpr hk]
      · simp only [varsSet, if_neg hka]
        simp only [varsGet, List.find?] at ih ⊢
        cases hbeq : ((ka, va).1 == k2) <;> simp [hbeq, ih]

theorem foldl_varsSet_absent (l : List (String × PyValue)) :
    ∀ vs k, (∀ p ∈ l, p.1 ≠ k) →
      varsGet (l.foldl (fun acc kv => varsSet acc kv.1 kv.2) vs) k = varsGet vs k := by
  induction l with
  | nil => intro vs k _; rfl
  | cons p rest ih =>
      intro vs k h
      rw [List.foldl_cons, ih _ k (fun q hq => h q (List.mem_cons_of_mem _ hq)),
          varsGet_varsSet_ne vs p.2 (h p (List.mem_cons_self _ _))]

theorem foldl_varsSet_found (l : List (String × PyValue)) :
    ∀ vs k v, (∃ p ∈ l, p.1 = k) → (∀ p ∈ l, p.1 = k → p.2 = v) →
      varsGet (l.foldl (fun acc kv => varsSet acc kv.1 kv.2) vs) k = some v := by
  induction l with
  | nil => intro vs k v hex _; simp at hex
  | cons p rest ih =>
      intro vs k v hex hall
      rw [List.foldl_cons]
      by_cases hrest : ∃ q ∈ rest, q.1 = k
      · exact ih _ k v hrest (fun q hq => hall q (List.mem_cons_of_mem _ hq))
      · have hp : p.1 = k := by
          rcases hex with ⟨q, hq, hqk⟩
          rcases List.mem_cons.mp hq with hq1 | hq2
          · rw [← hq1]; exact hqk
          · exact absurd ⟨q, hq2, hqk⟩ hrest
        have hv : p.2 = v := hall p (List.mem_cons_self _ _) hp
        have habs : ∀ q ∈ rest, q.1 ≠ k := by
          intro q hq hqk
          exact hrest ⟨q, hq, hqk⟩
        rw [foldl_varsSet_absent rest _ k habs, hp, hv, varsGet_varsSet_self]

/-- Applying the extracted dict to a variable map preserves each
extracted field's value from the structured result. -/
theorem extractedFields_foldl_get (ex : List String) (kvs vs0 : List (String × PyValue))
    (f : String) (v : PyValue) (hf : f ∈ ex) (hv : varsGet kvs f = some v) :
    varsGet ((extractedFields ex kvs).foldl
      (fun acc kv => varsSet acc kv.1 kv.2) vs0) f = some v := by
  apply foldl_varsSet_found
  · exact ⟨(f, v), List.mem_filterMap.mpr ⟨f, hf, by rw [hv]; rfl⟩, rfl⟩
  · intro q hq hqf
    obtain ⟨g, hg, hgq⟩ := List.mem_filterMap.mp hq
    rcases hw : varsGet kvs g with _ | w <;> rw [hw] at hgq
    · exact Option.noConfusion hgq
    · injection hgq with hgq2
      rw [← hgq2] at hqf ⊢
      simp only at hqf ⊢
      rw [hqf] at hw
      rw [hw] at hv
      exact Option.some.inj hv

theorem resolveStepNode_isEmpty {wf : Workflow} {s : ConversationState} {n : Node}
    (h : resolveStepNode wf s = some n) : wf.nodes.isEmpty = false := by
  cases hn : wf.nodes with
  | nil => rw [resolveStepNode, hn] at h; exact Option.noConfusion h
  | cons a l => simp [hn]

/-- `step` after a successful resolution and node preparation: append the
user message, run the node, overwrite `last_node` and `done`, then apply
the type-directed chaining policy. -/
theorem step_resolved (collab : Collab) (jm : JmesEval) (wf : Workflow)
    (s : ConversationState) (u : String) {n : Node}
    (hres : resolveStepNode wf s = some n) (hprep : prepareNode jm n = .ok ()) :
    step collab jm wf s u =
      match runNode collab jm n (appendUserMessage s u) with
      | .error e => .error (e, appendUserMessage s u)
      | .ok r0 =>
          let r1 : ConversationState :=
            { r0 with last_node := some n.id, done := !hasNextNode wf n }
          if n.type == NodeType.Prompt then chainLLM collab jm wf n r1
          else if n.type == NodeType.LLM && !r1.done then
            chainOutput collab jm wf n r1
          else .ok r1 := by
  rw [step, resolveStepNode_isEmpty hres]
  simp only [Bool.false_eq_true, if_false, hres, hprep]

/-! ## Concrete fixtures used by witnesses and counterexamples -/

/-- A collaborator that always fails (never reached in workflows without
LLM nodes). -/
def noBackend : Collab := fun _ _ => .error "backend unavailable"

/-- A JMESPath evaluation returning `null` for every expression. -/
def nullJmes : JmesEval := fun _ _ => .vNone

/-! ## Claims -/

/-- C9: for every template `t` and variable map `v`, the output of
`render_template` is the concatenation of the per-segment contributions
of the regex scan, in which every matched placeholder whose stripped name
is not a key of `v` contributes exactly its own source text (braces
included) — so every unknown placeholder is left verbatim, in place, in
the output, even while other placeholders are substituted; the segments
reassemble to `t` itself, and with the empty variable map
`render_template t [] = t`.  The function is total, so it never raises. -/
theorem C9_render_unknown_placeholders (t : String) (vs : List (String × PyValue)) :
    render_template t vs = String.mk (catSegs (renderSeg vs) (segments t.data)) ∧
    (∀ inner, Segment.ph inner ∈ segments t.data →
      varsGet vs (String.mk (pyStripList inner)) = none →
      renderSeg vs (Segment.ph inner) = '{' :: '{' :: (inner ++ ['}', '}'])) ∧
    catSegs segSrc (segments t.data) = t.data ∧
    render_template t [] = t := by
  refine ⟨?_, ?_, ?_, ?_⟩
  · rw [render_template,
        renderGo_eq_catSegs vs t.data.length t.data (Nat.le_refl _), segments]
  · intro inner _ hnone
    show (match varsGet vs (String.mk (pyStripList inner)) with
          | some v => (pyStr v).data
          | none => '{' :: '{' :: (inner ++ ['}', '}'])) =
      '{' :: '{' :: (inner ++ ['}', '}'])
    rw [hnone]
  · rw [segments, segmentsGo_src t.data.length t.data (Nat.le_refl _)]
  · rw [render_template,
        renderGo_eq_catSegs [] t.data.length t.data (Nat.le_refl _),
        funext renderSeg_empty_eq_src,
        segmentsGo_src t.data.length t.data (Nat.le_refl _)]

theorem C9_witness :
    render_template "\x7b\x7ba\x7d\x7d-\x7b\x7bb\x7d\x7d" [("a", .vStr "X")] =
      "X-\x7b\x7bb\x7d\x7d" ∧
    Segment.ph ['b'] ∈ segments "\x7b\x7ba\x7d\x7d-\x7b\x7bb\x7d\x7d".data ∧
    varsGet [("a", PyValue.vStr "X")] (String.mk (pyStripList ['b'])) = none ∧
    renderSeg [("a", .vStr "X")] (Segment.ph ['b']) = '{' :: '{' :: (['b'] ++ ['}', '}']) ∧
    render_template "\x7b\x7ba\x7d\x7d-\x7b\x7bb\x7d\x7d" [] =
      "\x7b\x7ba\x7d\x7d-\x7b\x7bb\x7d\x7d" := by
  have h := C9_render_unknown_placeholders "\x7b\x7ba\x7d\x7d-\x7b\x7bb\x7d\x7d"
    [("a", .vStr "X")]
  exact ⟨h.1.trans rfl, by decide, rfl, h.2.1 ['b'] (by decide) rfl, h.2.2.2⟩

/-- C5 (counterexample to the claim as stated): on a condition with more
than one `==`, `create_router` does not split at the first occurrence —
the bare `split("==")` unpacking raises `ValueError`. -/
theorem C5_counterexample :
    create_router nullJmes "x == 1 == 2" =
      .error "too many values to unpack (expected 2)" := rfl

/-- C5 (amended): for every condition string containing exactly one
occurrence of `==`, `create_router` splits there into a variable name and
a literal, trims whitespace and then surrounding quote characters from
the literal, and returns the predicate that is true exactly when
`variables[name]` equals the literal by exact value equality with no
numeric coercion (a stored integer never matches the literal).  A
condition containing more than one `==` instead raises at
router-construction time. -/
theorem C5_router_equality (jm : JmesEval) (cond a b : String)
    (h : pySplit cond "==" = [a, b]) :
    create_router jm cond =
      .ok (checkEquality (pyStrip a) (stripQuotes (pyStrip b))) ∧
    (∀ s, checkEquality (pyStrip a) (stripQuotes (pyStrip b)) s =
      .ok (varsGet s.vars (pyStrip a) == some (.vStr (stripQuotes (pyStrip b))))) ∧
    (∀ s n, varsGet s.vars (pyStrip a) = some (.vInt n) →
      checkEquality (pyStrip a) (stripQuotes (pyStrip b)) s = .ok false) ∧
    (∀ (jm2 : JmesEval) (cond2 x y z : String) (l : List String),
      pySplit cond2 "==" = x :: y :: z :: l →
      create_router jm2 cond2 = .error "too many values to unpack (expected 2)") := by
  refine ⟨by rw [create_router, h], fun s => rfl, ?_, ?_⟩
  · intro s n hv
    rw [checkEquality, hv]
    simp
  · intro jm2 cond2 x y z l h2
    rw [create_router, h2]

theorem C5_witness :
    pySplit "x == \x22yes\x22" "==" = ["x ", " \x22yes\x22"] ∧
    create_router nullJmes "x == \x22yes\x22" = .ok (checkEquality "x" "yes") ∧
    checkEquality "x" "yes" { vars := [("x", .vStr "yes")] } = .ok true ∧
    checkEquality "x" "yes" { vars := [("x", .vStr "no")] } = .ok false ∧
    checkEquality "x" "yes" { vars := [("x", .vInt 1)] } = .ok false := by
  have h := C5_router_equality nullJmes "x == \x22yes\x22" "x " " \x22yes\x22" rfl
  exact ⟨rfl, h.1, h.2.1 _, h.2.1 _, h.2.2.1 { vars := [("x", .vInt 1)] } 1 rfl⟩

/-- C8: for every condition string not containing `==` (the split along
`==` is a single fragment), `create_router` returns the predicate that
evaluates the compiled expression against the serialized state, raising a
hard error whenever the result is not a boolean and returning the boolean
otherwise. -/
theorem C8_router_expression_boolean (jm : JmesEval) (cond a : String)
    (h : pySplit cond "==" = [a]) :
    create_router jm cond = .ok (evalExpression jm cond) ∧
    (∀ s b, jm cond s = .vBool b → evalExpression jm cond s = .ok b) ∧
    (∀ s, (∀ b, jm cond s ≠ .vBool b) →
      evalExpression jm cond s =
        .error ("Condition " ++ cond ++ " must evaluate to boolean")) := by
  refine ⟨by rw [create_router, h], ?_, ?_⟩
  · intro s b hb
    rw [evalExpression, hb]
  · intro s hb
    rw [evalExpression]
    cases hj : jm cond s with
    | vBool b => exact absurd hj (hb b)
    | vStr v => rfl
    | vInt v => rfl
    | vNone => rfl

/-- A JMESPath evaluation used by witnesses: `done` reads the serialized
`done` field, anything else evaluates to a non-boolean. -/
def doneJmes : JmesEval := fun expr s => if expr == "done" then .vBool s.done else .vStr "x"

theorem C8_witness :
    pySplit "done" "==" = ["done"] ∧
    create_router doneJmes "done" = .ok (evalExpression doneJmes "done") ∧
    evalExpression doneJmes "done" { done := true } = .ok true ∧
    evalExpression doneJmes "ready" { done := true } =
      .error "Condition ready must evaluate to boolean" := by
  have h := C8_router_expression_boolean doneJmes "done" "done" rfl
  have h2 := C8_router_expression_boolean doneJmes "ready" "ready" rfl
  exact ⟨rfl, h.1, h.2.1 { done := true } true rfl,
    h2.2.2 { done := true } (fun b hb => by simp [doneJmes] at hb)⟩

/-- A single-node workflow whose only node is an Output node. -/
def nodeO1 : Node := { id := "o", type := .Output, config := { text := some "bye" } }

def wfOut : Workflow := { id := "w1", name := "w1", nodes := [nodeO1] }

def stOut : ConversationState :=
  { messages := [{ role := "assistant", content := "bye" }],
    vars := [],
    last_node := some "o",
    done := false }

/-- C1 (counterexample to the claim as stated): on a workflow whose first
node is an Output node with no successor, `start()` with no input returns
`done = false`, although the claim requires `done = true` there
(`start` unconditionally resets `done` after the first node). -/
theorem C1_counterexample :
    start noBackend nullJmes wfOut none = .ok stOut ∧
    stOut.done = false ∧
    nodeO1.type = NodeType.Output ∧
    hasNextNode wfOut nodeO1 = false ∧
    wfOut.nodes = [nodeO1] :=
  ⟨rfl, rfl, rfl, rfl, rfl⟩

/-- C1 (amended): for every workflow with at least one node, `start()`
with no input executes exactly the first node (no chaining, no user
message) and the returned state always has `done = false` — regardless of
the first node's type and of whether it has a successor. -/
theorem C1_start_no_input (collab : Collab) (jm : JmesEval) (wf : Workflow)
    (n : Node) (rest : List Node) (h : wf.nodes = n :: rest) :
    start collab jm wf none =
      match prepareNode jm n with
      | .error e => .error e
      | .ok _ =>
          match runNode collab jm n
              { messages := [], vars := wf.vars, last_node := none, done := false } with
          | .error e => .error e
          | .ok r => .ok { r with last_node := some n.id, done := false } := by
  simp only [start, h, startInitState]
  cases hp : prepareNode jm n with
  | error e => rfl
  | ok u =>
      cases hr : runNode collab jm n
          { messages := [], vars := wf.vars, last_node := none, done := false } with
      | error e => rfl
      | ok r => rfl

theorem C1_witness :
    wfOut.nodes = [nodeO1] ∧
    start noBackend nullJmes wfOut none = .ok stOut :=
  ⟨rfl, by rw [C1_start_no_input noBackend nullJmes wfOut nodeO1 [] rfl]; rfl⟩

/-- A two-node workflow `Prompt P → Output O` where the Output node also
has an outgoing edge (back to `P`). -/
def nodeP2 : Node := { id := "P", type := .Prompt, config := { text := some "hi" } }

def nodeO2 : Node := { id := "O", type := .Output, config := { text := some "bye" } }

def wfPO : Workflow :=
  { id := "w2", name := "w2", nodes := [nodeP2, nodeO2],
    edges := [{ id := "e1", source := "P", target := "O" },
              { id := "e2", source := "O", target := "P" }] }

def sP2 : ConversationState :=
  { messages := [{ role := "assistant", content := "hi" }], last_node := some "P" }

def rO2 : ConversationState :=
  { messages := [{ role := "assistant", content := "hi" },
                 { role := "user", content := "x" },
                 { role := "assistant", content := "bye" }],
    vars := [("name", .vStr "x")],
    last_node := some "O",
    done := true }

/-- C2 (counterexample to the claim as stated): when `step` executes an
Output node that has an outgoing edge, the executor sets `done = true`
but the driver then overwrites it with the no-successor rule, so the
state returned to the caller has `done = false`. -/
theorem C2_counterexample :
    resolveStepNode wfPO sP2 = some nodeO2 ∧
    nodeO2.type = NodeType.Output ∧
    step noBackend nullJmes wfPO sP2 "x" = .ok { rO2 with done := false } ∧
    ({ rO2 with done := false } : ConversationState).done = false :=
  ⟨rfl, rfl, rfl, rfl⟩

/-- C2 (amended): the Output executor itself always returns
`done = true`, but when an Output node is the node executed by `step` —
or the node chained to through the LLM→Output chaining tail — the driver
overwrites `done` with the no-successor rule (`done = !hasNextNode`), so
the caller sees `done = true` only when the Output node has no successor
under that rule. -/
theorem C2_output_done_policy :
    (∀ (n : Node) (s : ConversationState) (t : String), n.config.text = some t →
      ∃ r, outputRun n s = .ok r ∧ r.done = true) ∧
    (∀ (collab : Collab) (jm : JmesEval) (wf : Workflow) (s : ConversationState)
       (u : String) (n : Node) (r : ConversationState),
      resolveStepNode wf s = some n →
      n.type = NodeType.Output →
      prepareNode jm n = .ok () →
      runNode collab jm n (appendUserMessage s u) = .ok r →
      step collab jm wf s u =
        .ok { r with last_node := some n.id, done := !hasNextNode wf n }) ∧
    (∀ (collab : Collab) (jm : JmesEval) (wf : Workflow) (src : Node)
       (r r3 : ConversationState) (n3 : Node),
      resolveFrom wf src.id = some n3 →
      n3.type = NodeType.Output →
      prepareNode jm n3 = .ok () →
      runNode collab jm n3 r = .ok r3 →
      chainOutput collab jm wf src r =
        .ok { r3 with last_node := some n3.id, done := !hasNextNode wf n3 }) := by
  refine ⟨?_, ?_, ?_⟩
  · intro n s t ht
    rw [outputRun, ht]
    exact ⟨_, rfl, rfl⟩
  · intro collab jm wf s u n r hres ht hprep hrun
    rw [step_resolved collab jm wf s u hres hprep, hrun]
    simp [ht]
  · intro collab jm wf src r r3 n3 hres ht hprep hrun
    rw [chainOutput, hres]
    simp [ht, hprep, hrun]

theorem C2_witness :
    (∃ r, outputRun nodeO2 sP2 = .ok r ∧ r.done = true) ∧
    runNode noBackend nullJmes nodeO2 (appendUserMessage sP2 "x") = .ok rO2 ∧
    step noBackend nullJmes wfPO sP2 "x" = .ok { rO2 with done := false } ∧
    chainOutput noBackend nullJmes wfPO nodeP2 sP2 =
      .ok { rO2 with
            messages := [{ role := "assistant", content := "hi" },
                         { role := "assistant", content := "bye" }],
            vars := [],
            done := false } := by
  have h := C2_output_done_policy
  refine ⟨h.1 nodeO2 sP2 "bye" rfl, rfl, ?_, ?_⟩
  · exact h.2.1 noBackend nullJmes wfPO sP2 "x" nodeO2 rO2 rfl rfl rfl rfl
  · exact h.2.2 noBackend nullJmes wfPO nodeP2 sP2
      { rO2 with
        messages := [{ role := "assistant", content := "hi" },
                     { role := "assistant", content := "bye" }],
        vars := [], done := true }
      nodeO2 rfl rfl rfl rfl

/-- `hasNextNode` in resolution-free terms: it is false exactly when
either there are no edges and the `next` pointer is falsy, or there are
edges and none of them leaves the node — the `next` pointer being ignored
in the latter case. -/
theorem hasNextNode_false_iff (wf : Workflow) (n : Node) :
    hasNextNode wf n = false ↔
      ((wf.edges = [] ∧ (n.next = none ∨ n.next = some "")) ∨
       (wf.edges ≠ [] ∧ ∀ e ∈ wf.edges, e.source ≠ n.id)) := by
  rw [hasNextNode]
  cases he : wf.edges with
  | nil =>
      simp only [List.isEmpty_nil, if_true]
      cases hn : n.next with
      | none => simp
      | some nxt =>
          constructor
          · intro h
            simp only [decide_eq_false_iff_not, not_not] at h
            simp [h]
          · intro h
            rcases h with ⟨_, h | h⟩ | ⟨h, _⟩
            · exact Option.noConfusion h
            · injection h with h2
              simp [h2]
            · exact absurd rfl h
  | cons e es =>
      simp only [List.isEmpty_cons, if_false, Bool.false_eq_true]
      rw [List.any_eq_false]
      constructor
      · intro h
        refine .inr ⟨List.cons_ne_nil e es, ?_⟩
        intro e2 he2 hsrc
        exact absurd (beq_iff_eq.mpr hsrc) (by simpa using h e2 he2)
      · intro h
        rcases h with ⟨h, _⟩ | ⟨_, h⟩
        · exact absurd h (List.cons_ne_nil e es)
        · intro e2 he2
          simpa using beq_eq_false_iff_ne.mpr (h e2 he2)

/-- A three-node workflow with a non-empty edge list `[A → N]` in which
`N` has no outgoing edge but a `next` pointer to `B`. -/
def nodeA3 : Node := { id := "A", type := .Prompt, config := { text := some "hi" } }

def nodeN3 : Node := { id := "N", type := .SetVar, config := { setvars := some [] },
                       next := some "B" }

def nodeB3 : Node := { id := "B", type := .SetVar, config := { setvars := some [] } }

def wfEN : Workflow :=
  { id := "w3", name := "w3", nodes := [nodeA3, nodeN3, nodeB3],
    edges := [{ id := "eAN", source := "A", target := "N" }] }

def s3a : ConversationState :=
  { messages := [{ role := "assistant", content := "hi" }], last_node := some "A" }

def s3b : ConversationState :=
  { messages := [{ role := "assistant", content := "hi" },
                 { role := "user", content := "x" }],
    last_node := some "N", done := true }

def s3c : ConversationState :=
  { messages := [{ role := "assistant", content := "hi" },
                 { role := "user", content := "x" },
                 { role := "user", content := "y" }],
    last_node := some "B", done := true }

/-- C3 (counterexample to the claim as stated): `step` executes the
SetVar node `N` (no chaining, executor does not force `done`); a
successor of `N` exists under the resolution order (the fallback `next`
pointer yields `B`), yet the returned state has `done = true`, because
`_has_next_node` ignores the fallback pointer when the edge list is
non-empty. -/
theorem C3_counterexample :
    resolveStepNode wfEN s3a = some nodeN3 ∧
    nodeN3.type = NodeType.SetVar ∧
    step noBackend nullJmes wfEN s3a "x" = .ok s3b ∧
    s3b.done = true ∧
    resolveFrom wfEN nodeN3.id = some nodeB3 :=
  ⟨rfl, rfl, rfl, rfl, rfl⟩

/-- C3 (amended): for every `step` call that executes an If or SetVar
node `N` (cases in which no auto-chaining applies and the executor does
not force `done`), the returned state has `done = true` iff
`_has_next_node` is false for `N`; that test uses the edge list alone
whenever it is non-empty (an outgoing edge of `N` exists), and the
truthiness of the `next` pointer only when the edge list is empty — so a
node with no outgoing edge but a set `next` pointer counts as having no
successor when the workflow's edge list is non-empty, even though the
resolution order would find one. -/
theorem C3_step_done_rule (collab : Collab) (jm : JmesEval) (wf : Workflow)
    (s : ConversationState) (u : String) (n : Node) (r : ConversationState)
    (hres : resolveStepNode wf s = some n)
    (ht : n.type = NodeType.SetVar ∨ n.type = NodeType.If)
    (hprep : prepareNode jm n = .ok ())
    (hrun : runNode collab jm n (appendUserMessage s u) = .ok r) :
    step collab jm wf s u =
      .ok { r with last_node := some n.id, done := !hasNextNode wf n } ∧
    (hasNextNode wf n = false ↔
      ((wf.edges = [] ∧ (n.next = none ∨ n.next = some "")) ∨
       (wf.edges ≠ [] ∧ ∀ e ∈ wf.edges, e.source ≠ n.id))) := by
  refine ⟨?_, hasNextNode_false_iff wf n⟩
  rw [step_resolved collab jm wf s u hres hprep, hrun]
  rcases ht with ht | ht <;> simp [ht]

def r3N : ConversationState :=
  { messages := [{ role := "assistant", content := "hi" },
                 { role := "user", content := "x" }],
    last_node := some "N" }

theorem C3_witness :
    runNode noBackend nullJmes nodeN3 (appendUserMessage s3a "x") = .ok r3N ∧
    step noBackend nullJmes wfEN s3a "x" = .ok s3b ∧
    hasNextNode wfEN nodeN3 = false ∧
    resolveFrom wfEN nodeN3.id = some nodeB3 := by
  have h := C3_step_done_rule noBackend nullJmes wfEN s3a "x" nodeN3 r3N
    rfl (.inl rfl) rfl rfl
  exact ⟨rfl, h.1, rfl, rfl⟩

/-- C4 (counterexample to the claim as stated): a reachable state with
`done = true` (reached through `start` and one `step` on `wfEN`) from
which a further `step` call executes another node — the fallback `next`
pointer still resolves a successor — appending a new user message, so
`messages` does not stay unchanged. -/
theorem C4_counterexample :
    start noBackend nullJmes wfEN none = .ok s3a ∧
    step noBackend nullJmes wfEN s3a "x" = .ok s3b ∧
    s3b.done = true ∧
    step noBackend nullJmes wfEN s3b "y" = .ok s3c ∧
    s3c.messages ≠ s3b.messages :=
  ⟨rfl, rfl, rfl, rfl, by decide⟩

/-- C4 (amended): on a state with `done = true` from which no successor
resolves (edges first, fallback `next` pointer second, from `last_node`),
a further `step` call returns the state unchanged: no new message, same
variables, `done` stays true.  When a successor does resolve, however,
`step` executes it even though `done` is true (see the counterexample). -/
theorem C4_terminal_frame (collab : Collab) (jm : JmesEval) (wf : Workflow)
    (s : ConversationState) (u : String)
    (hdone : s.done = true) (hres : resolveStepNode wf s = none) :
    step collab jm wf s u = .ok s := by
  have hs : ({ s with done := true } : ConversationState) = s := by
    obtain ⟨m, v, l, d⟩ := s
    simp only at hdone
    rw [hdone]
  rw [step]
  cases he : wf.nodes.isEmpty with
  | true => simp [he]
  | false => simp [he, hres, hs]

theorem C4_witness :
    s3c.done = true ∧
    resolveStepNode wfEN s3c = none ∧
    step noBackend nullJmes wfEN s3c "z" = .ok s3c :=
  ⟨rfl, rfl, C4_terminal_frame noBackend nullJmes wfEN s3c "z" rfl rfl⟩

/-- C7: after `step` executes an If or SetVar node, no further node
executes within that call — the result is exactly the single node's
output with `last_node`/`done` overwritten (chaining exists only in the
Prompt and LLM branches); the If executor writes the chosen branch's
target id into `variables["_next"]`; and successor resolution never reads
the variables (in particular not `"_next"`) — it depends only on
`last_node`, the edge list, and the `next` pointers. -/
theorem C7_next_variable_inert :
    (∀ (collab : Collab) (jm : JmesEval) (wf : Workflow) (s : ConversationState)
       (u : String) (n : Node) (r : ConversationState),
      resolveStepNode wf s = some n →
      (n.type = NodeType.If ∨ n.type = NodeType.SetVar) →
      prepareNode jm n = .ok () →
      runNode collab jm n (appendUserMessage s u) = .ok r →
      step collab jm wf s u =
        .ok { r with last_node := some n.id, done := !hasNextNode wf n }) ∧
    (∀ (jm : JmesEval) (n : Node) (s : ConversationState) (c tt ft : String)
       (rt : ConversationState → Except String Bool) (b : Bool),
      n.config.condition = some c →
      n.config.true_target = some tt →
      n.config.false_target = some ft →
      create_router jm c = .ok rt →
      rt s = .ok b →
      ifRun jm n s =
        .ok { s with last_node := some n.id,
                     vars := varsSet s.vars "_next" (.vStr (if b then tt else ft)) }) ∧
    (∀ (wf : Workflow) (s : ConversationState) (vs2 : List (String × PyValue)),
      resolveStepNode wf { s with vars := vs2 } = resolveStepNode wf s) := by
  refine ⟨?_, ?_, ?_⟩
  · intro collab jm wf s u n r hres ht hprep hrun
    rw [step_resolved collab jm wf s u hres hprep, hrun]
    rcases ht with ht | ht <;> simp [ht]
  · intro jm n s c tt ft rt b hc htt hft hrt hb
    rw [ifRun, hc, htt, hft]
    simp only [hrt, hb]
  · intro wf s vs2
    rfl

/-- An If node whose condition is the non-equality expression `done`. -/
def nodeI7 : Node :=
  { id := "I", type := .If,
    config := { condition := some "done",
                true_target := some "T", false_target := some "F" } }

def sI7 : ConversationState := { vars := [("k", .vNone)] }

theorem C7_witness :
    step noBackend nullJmes wfEN s3a "x" = .ok s3b ∧
    ifRun doneJmes nodeI7 sI7 =
      .ok { sI7 with last_node := some "I",
                     vars := varsSet sI7.vars "_next" (.vStr "F") } ∧
    resolveStepNode wfEN { s3a with vars := [("_next", .vStr "B")] } =
      resolveStepNode wfEN s3a := by
  have h := C7_next_variable_inert
  refine ⟨?_, ?_, h.2.2 wfEN s3a [("_next", .vStr "B")]⟩
  · exact h.1 noBackend nullJmes wfEN s3a "x" nodeN3 r3N rfl (.inr rfl) rfl rfl
  · exact h.2.1 doneJmes nodeI7 sI7 "done" "T" "F"
      (evalExpression doneJmes "done") false rfl rfl rfl rfl rfl

/-- An LLM node reached from a SetVar node, and a collaborator whose
structured response parses to a non-dict value. -/
def nodeL6 : Node :=
  { id := "L", type := .LLM,
    config := { prompt := some "p", extract := some ["response"] } }

def nodeS6 : Node :=
  { id := "S", type := .SetVar, config := { setvars := some [] }, next := some "L" }

def wfL6 : Workflow := { id := "w6", name := "w6", nodes := [nodeS6, nodeL6] }

def badCollab : Collab := fun _ _ => .ok (.other (.vStr "oops"))

def sS6 : ConversationState := { last_node := some "S" }

def st6 : ConversationState :=
  { messages := [{ role := "user", content := "hi" }],
    last_node := some "L", done := true }

/-- C6 (counterexample to the claim as stated): when the collaborator
returns a malformed structured response (a value that is not a dict), the
LLM node raises no error — the `step` call succeeds, silently skipping
both the variable extraction and the assistant message. -/
theorem C6_counterexample :
    resolveStepNode wfL6 sS6 = some nodeL6 ∧
    nodeL6.type = NodeType.LLM ∧
    step badCollab nullJmes wfL6 sS6 "hi" = .ok st6 ∧
    st6.messages = [{ role := "user", content := "hi" }] :=
  ⟨rfl, rfl, rfl, rfl⟩

/-- C6 (amended): the LLM executor raises when the state contains no
prior user message; an error raised by the text-generation collaborator
propagates to the caller; on a structured (dict) result whose extracted
`"response"` value — when present — is a string, it copies each `extract`
field present in the result into the variables and appends exactly one
assistant message; on a dict result whose extracted `"response"` value is
not a string it raises (the pydantic `Message.content : str` field
rejects the value); and on a malformed structured response that is not a
dict it raises no error and appends no message, silently skipping
extraction. -/
theorem C6_llm_error_handling :
    (∀ (collab : Collab) (n : Node) (s : ConversationState) (p : String)
       (ex : List String),
      n.config.prompt = some p → n.config.extract = some ex →
      (∀ m ∈ s.messages, m.role ≠ "user") →
      llmRun collab n s = .error "LLM node requires a user message") ∧
    (∀ (n : Node) (s : ConversationState) (p : String) (ex : List String) (e : String),
      n.config.prompt = some p → n.config.extract = some ex →
      (∃ m ∈ s.messages, m.role = "user") →
      llmRun (fun _ _ => .error e) n s = .error e) ∧
    (∀ (n : Node) (s : ConversationState) (p : String) (ex : List String)
       (kvs : List (String × PyValue)),
      n.config.prompt = some p → n.config.extract = some ex →
      (∃ m ∈ s.messages, m.role = "user") →
      (∀ v, varsGet (extractedFields ex kvs) "response" = some v →
        ∃ str, v = PyValue.vStr str) →
      ∃ r, llmRun (fun _ _ => .ok (.obj kvs)) n s = .ok r ∧
        (∃ msg, r.messages = s.messages ++ [msg] ∧ msg.role = "assistant") ∧
        (∀ f v, f ∈ ex → varsGet kvs f = some v → varsGet r.vars f = some v)) ∧
    (∀ (n : Node) (s : ConversationState) (p : String) (ex : List String)
       (kvs : List (String × PyValue)) (v : PyValue),
      n.config.prompt = some p → n.config.extract = some ex →
      (∃ m ∈ s.messages, m.role = "user") →
      varsGet (extractedFields ex kvs) "response" = some v →
      (∀ str, v ≠ PyValue.vStr str) →
      llmRun (fun _ _ => .ok (.obj kvs)) n s =
        .error "ValidationError: Message content must be a string") ∧
    (∀ (n : Node) (s : ConversationState) (p : String) (ex : List String) (v : PyValue),
      n.config.prompt = some p → n.config.extract = some ex →
      (∃ m ∈ s.messages, m.role = "user") →
      llmRun (fun _ _ => .ok (.other v)) n s = .ok { s with last_node := some n.id }) := by
  have hfind : ∀ (s : ConversationState), (∃ m ∈ s.messages, m.role = "user") →
      ∃ um, s.messages.reverse.find? (fun m => m.role == "user") = some um := by
    intro s hu
    obtain ⟨m, hm, hr⟩ := hu
    have : (s.messages.reverse.find? (fun m => m.role == "user")).isSome := by
      rw [List.find?_isSome]
      exact ⟨m, List.mem_reverse.mpr hm, by simp [hr]⟩
    exact Option.isSome_iff_exists.mp this
  refine ⟨?_, ?_, ?_, ?_, ?_⟩
  · intro collab n s p ex hp hex h
    have hnone : s.messages.reverse.find? (fun m => m.role == "user") = none :=
      List.find?_eq_none.mpr (fun m hm => by
        simpa using h m (List.mem_reverse.mp hm))
    rw [llmRun, hp, hex, hnone]
  · intro n s p ex e hp hex hu
    obtain ⟨um, hum⟩ := hfind s hu
    rw [llmRun, hp, hex, hum]
  · intro n s p ex kvs hp hex hu hstr
    obtain ⟨um, hum⟩ := hfind s hu
    rcases hresp : varsGet (extractedFields ex kvs) "response" with _ | v
    · simp only [llmRun, hp, hex, hum, hresp]
      refine ⟨_, rfl, ⟨_, rfl, rfl⟩, ?_⟩
      intro f v hf hv
      exact extractedFields_foldl_get ex kvs s.vars f v hf hv
    · obtain ⟨str, rfl⟩ := hstr v hresp
      simp only [llmRun, hp, hex, hum, hresp]
      refine ⟨_, rfl, ⟨_, rfl, rfl⟩, ?_⟩
      intro f v hf hv
      exact extractedFields_foldl_get ex kvs s.vars f v hf hv
  · intro n s p ex kvs v hp hex hu hresp hnot
    obtain ⟨um, hum⟩ := hfind s hu
    cases v with
    | vStr str => exact absurd rfl (hnot str)
    | vInt m => simp only [llmRun, hp, hex, hum, hresp]
    | vBool b => simp only [llmRun, hp, hex, hum, hresp]
    | vNone => simp only [llmRun, hp, hex, hum, hresp]
  · intro n s p ex v hp hex hu
    obtain ⟨um, hum⟩ := hfind s hu
    rw [llmRun, hp, hex, hum]

def sNoUser : ConversationState := { messages := [{ role := "assistant", content := "x" }] }

def sU6 : ConversationState := { messages := [{ role := "user", content := "q" }] }

theorem C6_witness :
    llmRun noBackend nodeL6 sNoUser = .error "LLM node requires a user message" ∧
    llmRun (fun _ _ => .error "backend unavailable") nodeL6 sU6 =
      .error "backend unavailable" ∧
    (∃ r, llmRun (fun _ _ => .ok (.obj [("response", .vStr "ok"), ("age", .vInt 3)]))
        nodeL6 sU6 = .ok r ∧
      (∃ msg, r.messages = sU6.messages ++ [msg] ∧ msg.role = "assistant") ∧
      (∀ f v, f ∈ ["response"] →
        varsGet [("response", .vStr "ok"), ("age", .vInt 3)] f = some v →
        varsGet r.vars f = some v)) ∧
    llmRun (fun _ _ => .ok (.obj [("response", .vInt 3)])) nodeL6 sU6 =
      .error "ValidationError: Message content must be a string" ∧
    llmRun (fun _ _ => .ok (.other (.vStr "oops"))) nodeL6 sU6 =
      .ok { sU6 with last_node := some "L" } := by
  have h := C6_llm_error_handling
  refine ⟨?_, ?_, ?_, ?_, ?_⟩
  · exact h.1 noBackend nodeL6 sNoUser "p" ["response"] rfl rfl (by decide)
  · exact h.2.1 nodeL6 sU6 "p" ["response"] "backend unavailable" rfl rfl
      ⟨_, List.mem_cons_self _ _, rfl⟩
  · exact h.2.2.1 nodeL6 sU6 "p" ["response"]
      [("response", .vStr "ok"), ("age", .vInt 3)] rfl rfl
      ⟨_, List.mem_cons_self _ _, rfl⟩
      (fun v hv => ⟨"ok", (Option.some.inj
        (hv : some (PyValue.vStr "ok") = some v)).symm⟩)
  · exact h.2.2.2.1 nodeL6 sU6 "p" ["response"] [("response", .vInt 3)] (.vInt 3)
      rfl rfl ⟨_, List.mem_cons_self _ _, rfl⟩ rfl
      (fun str hstr => PyValue.noConfusion hstr)
  · exact h.2.2.2.2 nodeL6 sU6 "p" ["response"] (.vStr "oops") rfl rfl
      ⟨_, List.mem_cons_self _ _, rfl⟩

end VoiceAgent
